import Mathlib

/-
Verification of the multi-tenant telegram bot orchestration core.

Shallow embedding of the dispatch pipeline (bot_service.py), the handler
registry (handler_registry.py), the event bus (event_manager.py), the
tenant registry and broadcast engine (bot_manager.py) and the queue router
(kafka_consumer.py).  Python exceptions are modelled with an explicit
Attempt type; each async method is embedded as a pure function returning a
trace of its observable actions (state assignments, event-bus emissions,
invoked handlers) together with a flag telling whether the call re-raised
to its caller.
-/

namespace TgBot

/-- Result of calling a Python callable: a normal return or a raised
exception. -/
inductive Attempt (α : Type) where
  | ok (val : α)
  | raised
deriving DecidableEq, Repr

/-- A message handler as seen by one fixed inbound event: its identity, the
priority stored in its metadata (none models a handler object without a
metadata attribute, which the registry sort key treats as priority 50), the
outcome of awaiting can_handle on that event and the outcome of awaiting
handle on that event. -/
structure MsgHandler where
  id : Nat
  priority : Option Int
  canHandle : Attempt Bool
  handleResult : Attempt Unit
deriving DecidableEq, Repr

/-- A callback-query handler as seen by one fixed callback event
(ICallbackHandler has no metadata/priority field). -/
structure CbHandler where
  id : Nat
  canHandle : Attempt Bool
  handleResult : Attempt Unit
deriving DecidableEq, Repr

/-- Observable trace of one dispatch walk: the handler ids whose can_handle
was called, in call order; the handler ids whose handle was invoked, in
call order; and how many error notifications were routed to the event bus
(TelegramBotService.handle_error calls emit_error once per caught
exception). -/
structure DispatchTrace where
  evaluated : List Nat
  executed : List Nat
  errors : Nat
deriving DecidableEq, Repr

/-- Embedding of TelegramBotService._process_message (bot_service.py lines
75-85): for each handler in order, a try block runs can_handle and, when it
returns True, handle followed by break; the except block routes the caught
exception to handle_error (one emit_error) and then the for loop continues
with the next handler. -/
def process_message : List MsgHandler → DispatchTrace
  | [] => ⟨[], [], 0⟩
  | h :: hs =>
    match h.canHandle with
    | Attempt.raised =>
      let t := process_message hs
      ⟨h.id :: t.evaluated, t.executed, t.errors + 1⟩
    | Attempt.ok false =>
      let t := process_message hs
      ⟨h.id :: t.evaluated, t.executed, t.errors⟩
    | Attempt.ok true =>
      match h.handleResult with
      | Attempt.ok _ => ⟨[h.id], [h.id], 0⟩
      | Attempt.raised =>
        let t := process_message hs
        ⟨h.id :: t.evaluated, h.id :: t.executed, t.errors + 1⟩

/-- Embedding of TelegramBotService._process_callback_query (bot_service.py
lines 87-97), structurally identical to the message walk but over the
callback handlers. -/
def process_callback_query : List CbHandler → DispatchTrace
  | [] => ⟨[], [], 0⟩
  | h :: hs =>
    match h.canHandle with
    | Attempt.raised =>
      let t := process_callback_query hs
      ⟨h.id :: t.evaluated, t.executed, t.errors + 1⟩
    | Attempt.ok false =>
      let t := process_callback_query hs
      ⟨h.id :: t.evaluated, t.executed, t.errors⟩
    | Attempt.ok true =>
      match h.handleResult with
      | Attempt.ok _ => ⟨[h.id], [h.id], 0⟩
      | Attempt.raised =>
        let t := process_callback_query hs
        ⟨h.id :: t.evaluated, h.id :: t.executed, t.errors + 1⟩

/-- The id of the first handler of the list whose can_handle returns True
(none when no handler matches). -/
def firstMatchId : List CbHandler → Option Nat
  | [] => none
  | h :: hs => if h.canHandle = Attempt.ok true then some h.id else firstMatchId hs

/-- Embedding of HandlerRegistry (handler_registry.py): the insertion-ordered
list of message handlers, the insertion-ordered list of callback handlers,
and the dirty flag guarding the lazy sort. -/
structure Registry where
  message_handlers : List MsgHandler
  callback_handlers : List CbHandler
  sortedFlag : Bool
deriving DecidableEq, Repr

/-- The registry produced by HandlerRegistry.__init__: empty lists, dirty
flag cleared. -/
def emptyRegistry : Registry := ⟨[], [], false⟩

/-- Embedding of HandlerRegistry.register_message_handler: append and mark
unsorted. -/
def register_message_handler (st : Registry) (h : MsgHandler) : Registry :=
  { st with message_handlers := st.message_handlers ++ [h], sortedFlag := false }

/-- Embedding of HandlerRegistry.register_callback_handler: append only (no
flag, no sort). -/
def register_callback_handler (st : Registry) (h : CbHandler) : Registry :=
  { st with callback_handlers := st.callback_handlers ++ [h] }

/-- The sort key of HandlerRegistry.get_message_handlers: the metadata
priority when the handler has one, else 50. -/
def sortKey (h : MsgHandler) : Int :=
  match h.priority with
  | some p => p
  | none => 50

/-- Stable descending insertion used to model the Python stable sort with
reverse=True: x passes below strictly greater keys and lands above every
element whose key is less than or equal to its own, so elements of equal
key keep their original relative order. -/
def insertDesc (x : MsgHandler) : List MsgHandler → List MsgHandler
  | [] => [x]
  | y :: ys => if sortKey x < sortKey y then y :: insertDesc x ys else x :: y :: ys

/-- Stable sort by priority descending; the semantics of
list.sort(key=priority-or-50, reverse=True), whose output is the unique
reordering that is descending on keys and preserves input order between
equal keys. -/
def sortDesc : List MsgHandler → List MsgHandler
  | [] => []
  | x :: xs => insertDesc x (sortDesc xs)

/-- Embedding of HandlerRegistry.get_message_handlers: when the dirty flag
is clear the stored list is sorted in place and the flag set; returns the
updated registry, the returned list, and whether a sort was computed by
this call (instrumentation for the at-most-once-per-mutation-batch
property). -/
def get_message_handlers (st : Registry) : Registry × List MsgHandler × Bool :=
  if st.sortedFlag then (st, st.message_handlers, false)
  else
    let l := sortDesc st.message_handlers
    ({ st with message_handlers := l, sortedFlag := true }, l, true)

/-- Embedding of HandlerRegistry.get_callback_handlers: returns the stored
callback list unchanged, in insertion order. -/
def get_callback_handlers (st : Registry) : List CbHandler :=
  st.callback_handlers

/-- The five notification kinds of the event bus. -/
inductive EventKind where
  | startup
  | shutdown
  | messageReceived
  | messageSent
  | error
deriving DecidableEq, Repr

/-- An event listener as seen by one emission: its identity and, per event
kind, whether its on_<event> coroutine raises. -/
structure Listener where
  id : Nat
  raisesOn : EventKind → Bool

/-- Observable trace of one emit call: the listener ids invoked, in order,
and the ids whose exception was caught and logged by
EventManager._handle_listener_error. -/
structure EmitTrace where
  invoked : List Nat
  loggedErrors : List Nat
deriving DecidableEq, Repr

/-- Embedding of the common body of EventManager.emit_startup,
emit_shutdown, emit_message_received, emit_message_sent and emit_error
(event_manager.py lines 74-112): for each listener of the subscription
list in order, a try block awaits the listener and the except block logs;
the loop never re-raises (the return type carries no exception). -/
def emit_event (k : EventKind) : List Listener → EmitTrace
  | [] => ⟨[], []⟩
  | l :: ls =>
    let t := emit_event k ls
    if l.raisesOn k then ⟨l.id :: t.invoked, l.id :: t.loggedErrors⟩
    else ⟨l.id :: t.invoked, t.loggedErrors⟩

/-- The lifecycle states of models/enums.py BotState. -/
inductive BotState where
  | idle
  | starting
  | running
  | stopping
  | stopped
  | error
deriving DecidableEq, Repr

/-- One observable step of a lifecycle method: an assignment to self.state,
an event-bus emission, or a transport call of stop(). -/
inductive LifeStep where
  | setState (s : BotState)
  | emitStartup
  | emitShutdown
  | emitError
  | deleteWebhook
  | closeSession
deriving DecidableEq, Repr

/-- Embedding of TelegramBotService._on_startup (bot_service.py lines
99-108), the dispatcher startup hook run by start_polling: set state to
STARTING; try get_me and on success set RUNNING then emit the startup
notification; on a get_me failure set ERROR and route the exception to
handle_error (emit_error).  Returns the step trace and whether the hook
re-raised to its caller; the except clause swallows the exception, so the
second component is false on both paths. -/
def on_startup (getMeRaises : Bool) : List LifeStep × Bool :=
  if getMeRaises then
    ([LifeStep.setState BotState.starting, LifeStep.setState BotState.error,
      LifeStep.emitError], false)
  else
    ([LifeStep.setState BotState.starting, LifeStep.setState BotState.running,
      LifeStep.emitStartup], false)

/-- Embedding of TelegramBotService.stop (bot_service.py lines 251-259): a
try block deletes the webhook then closes the session; the except block
routes the exception to handle_error (emit_error) and does not re-raise.
The two flags tell whether delete_webhook, respectively session.close,
raises.  Returns the step trace and whether stop re-raised to its caller
(always false). -/
def stop (deleteRaises closeRaises : Bool) : List LifeStep × Bool :=
  if deleteRaises then ([LifeStep.deleteWebhook, LifeStep.emitError], false)
  else if closeRaises then
    ([LifeStep.deleteWebhook, LifeStep.closeSession, LifeStep.emitError], false)
  else ([LifeStep.deleteWebhook, LifeStep.closeSession], false)

/-- A registered bot as stop_all sees it: its tenant id and the two
teardown failure flags of its TelegramBotService.stop call. -/
structure StopBot where
  id : Nat
  deleteRaises : Bool
  closeRaises : Bool
deriving DecidableEq, Repr

/-- Embedding of BotManager.stop_bot for a registered id (bot_manager.py
lines 163-174): a try block awaits bot.stop(); since stop never re-raises,
the except clause (which would re-raise) is unreachable and stop_bot
returns the trace of stop. -/
def stop_bot (b : StopBot) : List LifeStep × Bool :=
  stop b.deleteRaises b.closeRaises

/-- Observable outcome of BotManager.stop_all. -/
structure StopAllResult where
  remainingBots : List Nat
  shutdownEmittedFor : List Nat
  errorEmittedFor : List Nat
  failedCount : Nat
deriving DecidableEq, Repr

/-- Embedding of BotManager.stop_all (bot_manager.py lines 204-229): one
stop_bot task per registered bot gathered with return_exceptions=True, then
a count of the tasks that raised is logged.  No statement of stop_all or
stop_bot removes an entry from self.bots, so every tenant id stays in the
registry; shutdownEmittedFor and errorEmittedFor collect the ids whose stop
trace contains the corresponding emission. -/
def stop_all (bots : List StopBot) : StopAllResult :=
  let results := bots.map (fun b => (b.id, stop_bot b))
  { remainingBots := bots.map (fun b => b.id)
  , shutdownEmittedFor :=
      ((results.filter (fun r => (r.2.1.contains LifeStep.emitShutdown))).map (fun r => r.1))
  , errorEmittedFor :=
      ((results.filter (fun r => (r.2.1.contains LifeStep.emitError))).map (fun r => r.1))
  , failedCount := (results.filter (fun r => r.2.2)).length }

/-- A chat row returned by the persistence collaborator
(ChatRecord.get_active_chats) as the broadcast engine sees it: its chat id
and, for each 0-based attempt number, whether bot.send_message succeeds on
that attempt. -/
structure Chat where
  chat_id : Int
  sendOk : Nat → Bool

/-- Embedding of the attempt loop of the local coroutine send_with_retry
inside BotManager.broadcast_message (bot_manager.py lines 276-286): fuel is
the number of attempts left, attempt the current 0-based index; a
successful send returns True, the last failed attempt returns False, and an
exhausted loop falls through to the trailing return False. -/
def sendAttempts (c : Chat) : Nat → Nat → Bool
  | 0, _ => false
  | Nat.succ fuel, attempt =>
    if c.sendOk attempt then true else sendAttempts c fuel (attempt + 1)

/-- The coroutine send_with_retry(chat_id) with retry_count attempts. -/
def send_with_retry (c : Chat) (retry_count : Nat) : Bool :=
  sendAttempts c retry_count 0

/-- The batches produced by the loop for i in range(0, len(chats),
batch_size) with batch = chats[i:i+batch_size].  A Python range step must
be at least 1 (step 0 raises ValueError), hence the max with 1 that keeps
the model total. -/
def chunks (b : Nat) : List Chat → List (List Chat)
  | [] => []
  | x :: xs =>
    (x :: xs).take (max b 1) :: chunks b ((x :: xs).drop (max b 1))
termination_by l => l.length
decreasing_by
  simp only [List.length_drop, List.length_cons]
  omega

/-- Observable outcome of one tenant's broadcast pass. -/
structure BroadcastResult where
  total_success : Nat
  total_failed : Nat
  batchCount : Nat
  retVal : Option (Nat × Nat)
deriving DecidableEq, Repr

/-- A Python value that one element of the asyncio.gather result of the
batch loop could be: the aiojobs Job handle obtained by awaiting
Scheduler.spawn (which schedules the coroutine and returns the handle
wrapping the eventual boolean of the send), a plain boolean, or an
exception (return_exceptions=True would surface it as a value). -/
inductive GatherItem where
  | jobHandle (pendingResult : Bool)
  | boolResult (b : Bool)
  | exceptionValue
deriving DecidableEq, Repr

/-- The value gather yields for one batch task of broadcast_message: the
appended task is the coroutine of self.scheduler spawn applied to
send_with_retry(chat_id), and awaiting that spawn call returns the aiojobs
Job handle — the boolean outcome of the send stays inside the Job and is
never retrieved. -/
def gatherItem (c : Chat) (retry_count : Nat) : GatherItem :=
  GatherItem.jobHandle (send_with_retry c retry_count)

/-- Embedding of the predicate of the batch_success generator expression,
the Python identity test r is True: only the boolean literal True passes;
a Job handle never does. -/
def isLiteralTrue : GatherItem → Bool
  | GatherItem.boolResult true => true
  | _ => false

/-- Embedding of the predicate of the batch_failed generator expression,
r is False or isinstance(r, Exception): the literal False or an exception
value passes; a Job handle never does. -/
def isLiteralFalseOrException : GatherItem → Bool
  | GatherItem.boolResult false => true
  | GatherItem.exceptionValue => true
  | _ => false

/-- The body of the per-batch loop of BotManager.broadcast_message
(bot_manager.py lines 270-304): for each chat of the batch the coroutine
self.scheduler spawn(send_with_retry(chat_id)) is appended to batch_tasks,
and asyncio.gather awaits those spawn calls, yielding one aiojobs Job
handle per chat; batch_success counts the gathered values that are the
literal True and batch_failed those that are the literal False or an
exception, and both are added to the running totals — since every gathered
value is a Job handle, both counts are zero for every batch. -/
def batch_totals (retry_count : Nat) (acc : Nat × Nat) (batch : List Chat) :
    Nat × Nat :=
  let results := batch.map (fun c => gatherItem c retry_count)
  (acc.1 + (results.filter isLiteralTrue).length,
   acc.2 + (results.filter isLiteralFalseOrException).length)

/-- Embedding of the per-tenant body of BotManager.broadcast_message
(bot_manager.py lines 262-304) for one registered tenant whose persistence
layer reports the given active chats: the chats are cut into batches of
batch_size and each batch runs batch_totals — whose gathered values are
the Job handles of the spawned send tasks, so the accumulated totals stay
at zero whatever the send outcomes are.  The Python function is annotated
-> None and has no return statement, so its value to the caller is None
(retVal := none); the totals appear only in the final log line. -/
def broadcast_message (chats : List Chat) (batch_size retry_count : Nat) :
    BroadcastResult :=
  let bs := chunks batch_size chats
  let totals := bs.foldl (batch_totals retry_count) (0, 0)
  { total_success := totals.1
  , total_failed := totals.2
  , batchCount := bs.length
  , retVal := none }

/-- The in-memory chat index self.chat_bot_mapping of BotManager: an
association list from chat id to the set of bot ids (a Python set, modelled
as a duplicate-free list). -/
abbrev ChatMap : Type := List (Int × List Nat)

/-- The value the defaultdict holds for a chat id: the stored set when the
key is present. -/
def lookupChat (m : ChatMap) (c : Int) : Option (List Nat) :=
  (m.find? (fun e => e.1 == c)).map (fun e => e.2)

/-- Store a set under a chat id: replace the value in place when the key is
present, else append a fresh entry (defaultdict insertion order). -/
def setChat (m : ChatMap) (c : Int) (s : List Nat) : ChatMap :=
  if m.any (fun e => e.1 == c) then
    m.map (fun e => if e.1 == c then (e.1, s) else e)
  else m ++ [(c, s)]

/-- Remove a chat id entry (the del statement). -/
def eraseChat (m : ChatMap) (c : Int) : ChatMap :=
  m.filter (fun e => !(e.1 == c))

/-- Embedding of self.chat_bot_mapping[chat_id].add(bot_id) on the
defaultdict: a missing key denotes the empty set; set.add is a no-op on a
member. -/
def mapAdd (m : ChatMap) (c : Int) (b : Nat) : ChatMap :=
  let s := (lookupChat m c).getD []
  setChat m c (if b ∈ s then s else s ++ [b])

/-- Embedding of the deactivation steps of update_chat_activity:
self.chat_bot_mapping[chat_id].discard(bot_id) followed by deleting the
entry when the remaining set is empty.  Accessing the defaultdict at a
missing key creates an empty set, which the discard leaves empty and the
del then removes, so a missing key stays missing. -/
def mapDiscard (m : ChatMap) (c : Int) (b : Nat) : ChatMap :=
  let s := (lookupChat m c).getD []
  let rest := s.filter (fun x => x ≠ b)
  if rest = [] then eraseChat m c else setChat m c rest

/-- The tenant registry state of BotManager: the insertion-ordered map
tenant id to bot instance (the instance abstracted to the token of its
configuration) and the chat index. -/
structure ManagerState where
  bots : List (Nat × Nat)
  chat_bot_mapping : ChatMap

/-- The error raised by register_bot on a duplicate id (ValueError in the
source, the DuplicateTenant of the spec). -/
inductive RegError where
  | duplicateTenant
deriving DecidableEq, Repr

/-- Embedding of BotManager.register_bot (bot_manager.py lines 107-122)
with the persistence collaborator's active chat list for the new tenant
passed in: the duplicate check raises before any statement mutates the
state; otherwise the instance is stored and each active chat id gains the
tenant in the chat index.  Returns the state as the caller observes it
after the call together with the raised error, if any. -/
def register_bot (st : ManagerState) (bot_id : Nat) (cfgToken : Nat)
    (activeChats : List Int) : ManagerState × Option RegError :=
  if st.bots.any (fun b => b.1 == bot_id) then (st, some RegError.duplicateTenant)
  else
    ({ bots := st.bots ++ [(bot_id, cfgToken)]
     , chat_bot_mapping :=
         activeChats.foldl (fun m c => mapAdd m c bot_id) st.chat_bot_mapping },
     none)

/-- Embedding of the in-memory index update of BotManager.update_chat_activity
(bot_manager.py lines 316-334); the preceding chat.save() call persists the
membership to the external database and does not touch the index. -/
def update_chat_activity (st : ManagerState) (bot_id : Nat) (chat_id : Int)
    (is_active : Bool) : ManagerState :=
  if is_active then
    { st with chat_bot_mapping := mapAdd st.chat_bot_mapping chat_id bot_id }
  else
    { st with chat_bot_mapping := mapDiscard st.chat_bot_mapping chat_id bot_id }

/-- The chat index invariant: no entry holds an empty set. -/
def noEmptyEntry (m : ChatMap) : Prop :=
  ∀ e ∈ m, e.2 ≠ ([] : List Nat)

/-- An envelope consumed from the queue, after JSON deserialization:
data.get of bot_id and of update (none models an absent key), and whether
types.Update(**update_data) parses (the update payload abstracted to a
numeric token). -/
structure Envelope where
  bot_id : Option Nat
  updatePayload : Option Nat
  updateParses : Bool
deriving DecidableEq, Repr

/-- Outcome of routing one envelope: each early return of
KafkaConsumerService._process_message, or the update fed to the owning
tenant's dispatcher via bot.dp.feed_update. -/
inductive RouteOutcome where
  | skippedMissingBotId
  | skippedUnknownBot
  | skippedMissingUpdate
  | skippedParseError
  | fed (bot_id : Nat) (payload : Nat)
deriving DecidableEq, Repr

/-- Embedding of KafkaConsumerService._process_message (kafka_consumer.py
lines 116-144) against the manager's registered tenant ids: if not bot_id
returns early (Python falsiness: an absent key or the integer 0), an
unregistered id returns early, if not update_data returns early, a
types.Update constructor failure is caught by the surrounding try and
logged; otherwise the update is fed to exactly the looked-up tenant. -/
def route_envelope (registered : List Nat) (e : Envelope) : RouteOutcome :=
  match e.bot_id with
  | none => RouteOutcome.skippedMissingBotId
  | some bid =>
    if bid == 0 then RouteOutcome.skippedMissingBotId
    else if !(registered.contains bid) then RouteOutcome.skippedUnknownBot
    else
      match e.updatePayload with
      | none => RouteOutcome.skippedMissingUpdate
      | some u =>
        if e.updateParses then RouteOutcome.fed bid u
        else RouteOutcome.skippedParseError

/-- Embedding of the message-handling part of KafkaConsumerService._consume_loop
(kafka_consumer.py lines 98-114) over a finite stream of envelopes: each
envelope is processed inside a per-message try/except that logs and
continues, and route_envelope itself catches every failure, so every
envelope of the stream yields an outcome and the loop reaches the next
message. -/
def consume_loop (registered : List Nat) (msgs : List Envelope) :
    List RouteOutcome :=
  msgs.map (route_envelope registered)

/-- Two message handlers that both match one event; the first one's action
raises, the second one's action succeeds. -/
def c1FailingHandlers : List MsgHandler :=
  [⟨1, some 80, Attempt.ok true, Attempt.raised⟩,
   ⟨2, some 50, Attempt.ok true, Attempt.ok ()⟩]

/-- A registry of three tenants of which the second fails its webhook
deletion during teardown. -/
def c3Bots : List StopBot :=
  [⟨1, false, false⟩, ⟨2, true, false⟩, ⟨3, false, false⟩]

/-- A manager holding one registered tenant with id 7. -/
def c7State : ManagerState := ⟨[(7, 42)], []⟩

/-- A chat index where chat 10 has tenant 1 as its only member. -/
def c9State : ManagerState := ⟨[(1, 42)], [(10, [1])]⟩

/-- An active chat whose send fails on every attempt. -/
def c2FailChat : Chat := ⟨2, fun _ => false⟩

/-- A tenant's active chat list of two chats: chat 1 sends successfully on
the first attempt, chat 2 fails every attempt. -/
def c2Chats : List Chat := [⟨1, fun _ => true⟩, c2FailChat]

/-- A demonstration envelope stream: a well-formed envelope for tenant 3, a
bad envelope (unregistered tenant 9), then another well-formed envelope. -/
def c8Stream : List Envelope :=
  [⟨some 3, some 11, true⟩, ⟨some 9, some 12, true⟩, ⟨some 3, some 13, true⟩]

end TgBot

namespace TgBot

theorem emit_event_spec (k : EventKind) (ls : List Listener) :
    (emit_event k ls).invoked = ls.map (fun l => l.id)
    ∧ (emit_event k ls).loggedErrors
        = (ls.filter (fun l => l.raisesOn k)).map (fun l => l.id) := by
  induction ls with
  | nil => exact ⟨rfl, rfl⟩
  | cons l ls ih =>
    simp only [emit_event, List.filter_cons, List.map_cons]
    by_cases h : l.raisesOn k = true
    · simp [h, ih.1, ih.2]
    · simp [h, ih.1, ih.2]

/-- C6: every event-bus emission invokes the listeners in subscription
order; a listener that raises is logged and neither prevents later
listeners of the same emission from being invoked nor propagates to the
caller of emit (the emit loop is total and its trace covers the whole
subscription list). -/
theorem c6_event_bus_isolation (k : EventKind) (ls : List Listener) :
    (emit_event k ls).invoked = ls.map (fun l => l.id)
    ∧ (emit_event k ls).loggedErrors
        = (ls.filter (fun l => l.raisesOn k)).map (fun l => l.id) :=
  emit_event_spec k ls

/-- C1: evaluating the dispatch walk at the failing input: both matching
handlers have their actions executed — after the first matched action
raises, the exception is routed to the event bus (one error notification)
but the walk continues and the second matching handler also executes,
contradicting the at-most-one-handler rule of the spec and of the break
comment in the source. -/
theorem c1_walk_continues_after_raise :
    (process_message c1FailingHandlers).executed = [1, 2]
    ∧ (process_message c1FailingHandlers).evaluated = [1, 2]
    ∧ (process_message c1FailingHandlers).errors = 1 := by
  decide

/-- C4 counterexample: at the concrete failing startup (get_me raises), the
startup hook swallows the exception, so the failure is not re-raised to the
caller — start() does not fail, contradicting the claim. -/
theorem c4_counterexample : (on_startup true).2 = false := rfl

/-- C4 amended: from Idle the hook first moves the state to Starting; on
success the state becomes Running and exactly then the startup
notification is emitted; on failure the state becomes Error and an error
notification is emitted, but the exception is swallowed by the hook, so
the failure is never re-raised to the caller of start(). -/
theorem c4_startup_amended (g : Bool) :
    (on_startup g).1.head? = some (LifeStep.setState BotState.starting)
    ∧ (g = false → (on_startup g).1
        = [LifeStep.setState BotState.starting,
           LifeStep.setState BotState.running, LifeStep.emitStartup])
    ∧ (g = true → (on_startup g).1
        = [LifeStep.setState BotState.starting,
           LifeStep.setState BotState.error, LifeStep.emitError])
    ∧ (on_startup g).2 = false := by
  cases g <;> simp [on_startup]

theorem stop_never_raises (d c : Bool) : (stop d c).2 = false := by
  cases d <;> cases c <;> rfl

theorem stop_no_shutdown_step (d c : Bool) :
    (stop d c).1.contains LifeStep.emitShutdown = false := by
  cases d <;> cases c <;> rfl

theorem stop_error_step (d c : Bool) :
    (stop d c).1.contains LifeStep.emitError = (d || c) := by
  cases d <;> cases c <;> rfl

/-- C3 counterexample: on a registry of three tenants where tenant 2 fails
its transport teardown, stop_all leaves all three tenants in the active
registry (none is removed) and emits a shutdown notification for none of
them, contradicting the claim. -/
theorem c3_counterexample :
    (stop_all c3Bots).remainingBots = [1, 2, 3]
    ∧ (stop_all c3Bots).shutdownEmittedFor = [] := by
  decide

/-- C3 amended: stop() never re-raises (teardown failures are converted to
error notifications, so stop completes), but it emits no shutdown
notification at all — the shutdown notification belongs to the dispatcher
shutdown hook, not to stop(); consequently stop_all completes for every
tenant even when some fail teardown, emits error notifications exactly for
the failing tenants and shutdown notifications for none, counts zero
gather failures, and removes no tenant from the active registry. -/
theorem c3_stop_amended (bots : List StopBot) :
    (∀ d c : Bool, (stop d c).2 = false)
    ∧ (∀ d c : Bool, (stop d c).1.contains LifeStep.emitShutdown = false)
    ∧ (∀ d c : Bool, (stop d c).1.contains LifeStep.emitError = (d || c))
    ∧ (stop_all bots).remainingBots = bots.map (fun b => b.id)
    ∧ (stop_all bots).shutdownEmittedFor = []
    ∧ (stop_all bots).errorEmittedFor
        = (bots.filter (fun b => b.deleteRaises || b.closeRaises)).map (fun b => b.id)
    ∧ (stop_all bots).failedCount = 0 := by
  refine ⟨stop_never_raises, stop_no_shutdown_step, stop_error_step, rfl, ?_, ?_, ?_⟩
  · simp only [stop_all, List.filter_map, List.map_map]
    have h : ∀ b : StopBot,
        (Function.comp (fun r : Nat × (List LifeStep × Bool) =>
          r.2.1.contains LifeStep.emitShutdown)
          (fun b : StopBot => (b.id, stop_bot b))) b = false := by
      intro b
      simpa [stop_bot] using stop_no_shutdown_step b.deleteRaises b.closeRaises
    rw [List.filter_congr (fun b _ => h b)]
    simp
  · simp only [stop_all, List.filter_map, List.map_map]
    have h : ∀ b : StopBot,
        (Function.comp (fun r : Nat × (List LifeStep × Bool) =>
          r.2.1.contains LifeStep.emitError)
          (fun b : StopBot => (b.id, stop_bot b))) b
          = (b.deleteRaises || b.closeRaises) := by
      intro b
      simpa [stop_bot] using stop_error_step b.deleteRaises b.closeRaises
    rw [List.filter_congr (fun b _ => h b)]
    rfl
  · simp only [stop_all, List.filter_map, List.map_map]
    have h : ∀ b : StopBot,
        (Function.comp (fun r : Nat × (List LifeStep × Bool) => r.2.2)
          (fun b : StopBot => (b.id, stop_bot b))) b = false := by
      intro b
      simpa [stop_bot] using stop_never_raises b.deleteRaises b.closeRaises
    rw [List.filter_congr (fun b _ => h b)]
    simp

theorem mem_insertDesc {x a : MsgHandler} {l : List MsgHandler} :
    a ∈ insertDesc x l ↔ a = x ∨ a ∈ l := by
  induction l with
  | nil => simp [insertDesc]
  | cons y ys ih =>
    simp only [insertDesc]
    by_cases h : sortKey x < sortKey y
    · rw [if_pos h]
      simp only [List.mem_cons, ih]
      tauto
    · rw [if_neg h]
      simp only [List.mem_cons]

theorem pairwise_insertDesc {x : MsgHandler} {l : List MsgHandler}
    (hl : l.Pairwise (fun a b => sortKey b ≤ sortKey a)) :
    (insertDesc x l).Pairwise (fun a b => sortKey b ≤ sortKey a) := by
  induction l with
  | nil => simp [insertDesc]
  | cons y ys ih =>
    rcases List.pairwise_cons.mp hl with ⟨hy, hys⟩
    simp only [insertDesc]
    by_cases h : sortKey x < sortKey y
    · rw [if_pos h]
      refine List.pairwise_cons.mpr ⟨?_, ih hys⟩
      intro b hb
      rcases mem_insertDesc.mp hb with rfl | hb
      · exact le_of_lt h
      · exact hy b hb
    · rw [if_neg h]
      refine List.pairwise_cons.mpr ⟨?_, hl⟩
      intro b hb
      rcases List.mem_cons.mp hb with rfl | hb
      · exact le_of_not_lt h
      · exact le_trans (hy b hb) (le_of_not_lt h)

theorem pairwise_sortDesc (l : List MsgHandler) :
    (sortDesc l).Pairwise (fun a b => sortKey b ≤ sortKey a) := by
  induction l with
  | nil => simp [sortDesc]
  | cons x xs ih => exact pairwise_insertDesc ih

theorem filter_insertDesc (x : MsgHandler) (l : List MsgHandler) (v : Int) :
    (insertDesc x l).filter (fun h => sortKey h == v)
      = (x :: l).filter (fun h => sortKey h == v) := by
  induction l with
  | nil => rfl
  | cons y ys ih =>
    simp only [insertDesc]
    by_cases h : sortKey x < sortKey y
    · rw [if_pos h]
      by_cases hy : sortKey y = v
      · have hx : ¬ (sortKey x = v) := by omega
        simpa [List.filter_cons, hy, hx] using ih
      · simpa [List.filter_cons, hy] using ih
    · rw [if_neg h]

theorem filter_sortDesc (l : List MsgHandler) (v : Int) :
    (sortDesc l).filter (fun h => sortKey h == v)
      = l.filter (fun h => sortKey h == v) := by
  induction l with
  | nil => rfl
  | cons x xs ih =>
    simp only [sortDesc]
    rw [filter_insertDesc]
    simp only [List.filter_cons] at ih ⊢
    by_cases hx : (sortKey x == v) = true
    · rw [if_pos hx, if_pos hx, ih]
    · rw [if_neg hx, if_neg hx, ih]

theorem foldl_register_message (hs : List MsgHandler) :
    ∀ st : Registry,
      (hs.foldl register_message_handler st).message_handlers
          = st.message_handlers ++ hs
      ∧ (hs.foldl register_message_handler st).sortedFlag
          = (hs.isEmpty && st.sortedFlag) := by
  induction hs with
  | nil => intro st; simp
  | cons h hs ih =>
    intro st
    simp only [List.foldl_cons]
    rcases ih (register_message_handler st h) with ⟨h1, h2⟩
    refine ⟨?_, ?_⟩
    · rw [h1]
      simp [register_message_handler]
    · rw [h2]
      simp [register_message_handler]

/-- C5: for every sequence of message-handler registrations, the first read
of get_message_handlers returns the handlers in priority-descending order
with insertion order preserved between equal priorities (the filter at each
priority value equals the filter of the registration sequence), and a
second read with no intervening registration computes no sort and returns
the same registry and the same sequence. -/
theorem c5_ordered_handlers_stable (hs : List MsgHandler) :
    ((get_message_handlers (hs.foldl register_message_handler emptyRegistry)).2.1).Pairwise
        (fun a b => sortKey b ≤ sortKey a)
    ∧ (∀ v : Int,
        ((get_message_handlers (hs.foldl register_message_handler emptyRegistry)).2.1).filter
            (fun h => sortKey h == v)
          = hs.filter (fun h => sortKey h == v))
    ∧ get_message_handlers
          ((get_message_handlers (hs.foldl register_message_handler emptyRegistry)).1)
        = ((get_message_handlers (hs.foldl register_message_handler emptyRegistry)).1,
           (get_message_handlers (hs.foldl register_message_handler emptyRegistry)).2.1,
           false) := by
  rcases foldl_register_message hs emptyRegistry with ⟨h1, h2⟩
  have hflag : (hs.foldl register_message_handler emptyRegistry).sortedFlag = false := by
    rw [h2]; simp [emptyRegistry]
  have hmsg : (hs.foldl register_message_handler emptyRegistry).message_handlers = hs := by
    rw [h1]; simp [emptyRegistry]
  refine ⟨?_, ?_, ?_⟩
  · simp only [get_message_handlers, hflag, hmsg]
    simpa using pairwise_sortDesc hs
  · intro v
    simp only [get_message_handlers, hflag, hmsg]
    simpa using filter_sortDesc hs v
  · simp [get_message_handlers, hflag, hmsg]

theorem foldl_register_callback (hs : List CbHandler) :
    ∀ st : Registry,
      get_callback_handlers (hs.foldl register_callback_handler st)
        = get_callback_handlers st ++ hs := by
  induction hs with
  | nil => intro st; simp [get_callback_handlers]
  | cons h hs ih =>
    intro st
    simp only [List.foldl_cons]
    rw [ih]
    simp [get_callback_handlers, register_callback_handler]

theorem evaluated_in_order (hs : List CbHandler) :
    ∃ rest, (process_callback_query hs).evaluated ++ rest
        = hs.map (fun h => h.id) := by
  induction hs with
  | nil => exact ⟨[], rfl⟩
  | cons h hs ih =>
    rcases ih with ⟨rest, hrest⟩
    cases hch : h.canHandle with
    | raised => exact ⟨rest, by simp [process_callback_query, hch, hrest]⟩
    | ok b =>
      cases b with
      | false => exact ⟨rest, by simp [process_callback_query, hch, hrest]⟩
      | true =>
        cases hh : h.handleResult with
        | ok u =>
          exact ⟨hs.map (fun h => h.id), by simp [process_callback_query, hch, hh]⟩
        | raised => exact ⟨rest, by simp [process_callback_query, hch, hh, hrest]⟩

theorem executed_head_eq_firstMatch (hs : List CbHandler) :
    (process_callback_query hs).executed.head? = firstMatchId hs := by
  induction hs with
  | nil => rfl
  | cons h hs ih =>
    cases hch : h.canHandle with
    | raised => simp [process_callback_query, firstMatchId, hch, ih]
    | ok b =>
      cases b with
      | false => simp [process_callback_query, firstMatchId, hch, ih]
      | true =>
        cases hh : h.handleResult with
        | ok u => simp [process_callback_query, firstMatchId, hch, hh]
        | raised => simp [process_callback_query, firstMatchId, hch, hh]

theorem first_match_executes_alone (pre : List CbHandler) :
    ∀ (h0 : CbHandler) (post : List CbHandler),
      (∀ p ∈ pre, p.canHandle ≠ Attempt.ok true) →
      h0.canHandle = Attempt.ok true → h0.handleResult = Attempt.ok () →
      (process_callback_query (pre ++ h0 :: post)).executed = [h0.id] := by
  induction pre with
  | nil =>
    intro h0 post hpre hch hh
    simp [process_callback_query, hch, hh]
  | cons p pre ih =>
    intro h0 post hpre hch hh
    have hp : p.canHandle ≠ Attempt.ok true := hpre p (by simp)
    have hrec := ih h0 post (fun q hq => hpre q (by simp [hq])) hch hh
    cases hcp : p.canHandle with
    | raised => simp [process_callback_query, hcp, hrec]
    | ok b =>
      cases b with
      | false => simp [process_callback_query, hcp, hrec]
      | true => exact absurd hcp hp

/-- C10: callback handlers are stored as an insertion-ordered list (the
registry read returns exactly the registration sequence, unsorted), the
dispatch walk evaluates can_handle along that order (its evaluation trace
is an initial segment of the registration sequence), the first handler
whose can_handle returns true is the first whose handle executes, and when
its handle returns normally it is the only handler executed. -/
theorem c10_callback_dispatch_deterministic (st : Registry) (hs : List CbHandler) :
    get_callback_handlers (hs.foldl register_callback_handler st)
      = get_callback_handlers st ++ hs
    ∧ (∃ rest, (process_callback_query hs).evaluated ++ rest
        = hs.map (fun h => h.id))
    ∧ (process_callback_query hs).executed.head? = firstMatchId hs
    ∧ (∀ pre h0 post, hs = pre ++ h0 :: post →
        (∀ p ∈ pre, p.canHandle ≠ Attempt.ok true) →
        h0.canHandle = Attempt.ok true → h0.handleResult = Attempt.ok () →
        (process_callback_query hs).executed = [h0.id]) := by
  refine ⟨foldl_register_callback hs st, evaluated_in_order hs,
    executed_head_eq_firstMatch hs, ?_⟩
  intro pre h0 post heq hpre hch hh
  rw [heq]
  exact first_match_executes_alone pre h0 post hpre hch hh

theorem countP_pos_any (l : List (Nat × Nat)) (bot_id : Nat)
    (h : l.countP (fun b => b.1 == bot_id) = 1) :
    l.any (fun b => b.1 == bot_id) = true := by
  have hpos : 0 < l.countP (fun b => b.1 == bot_id) := by omega
  rcases List.countP_pos_iff.mp hpos with ⟨a, ha, hpa⟩
  exact List.any_eq_true.mpr ⟨a, ha, hpa⟩

/-- C7: registering a tenant id already present in the registry fails
synchronously with the duplicate-tenant error and mutates nothing — the
returned state is exactly the prior state, so the tenant map still has
exactly one entry for that id and the chat index is untouched. -/
theorem c7_duplicate_register (st : ManagerState) (bot_id cfg : Nat)
    (chats : List Int)
    (h : st.bots.countP (fun b => b.1 == bot_id) = 1) :
    (register_bot st bot_id cfg chats).2 = some RegError.duplicateTenant
    ∧ (register_bot st bot_id cfg chats).1 = st
    ∧ (register_bot st bot_id cfg chats).1.bots.countP (fun b => b.1 == bot_id) = 1
    ∧ (register_bot st bot_id cfg chats).1.chat_bot_mapping = st.chat_bot_mapping := by
  have hany := countP_pos_any st.bots bot_id h
  refine ⟨?_, ?_, ?_, ?_⟩ <;> simp [register_bot, hany, h]

/-- C7 witness: the duplicate registration of tenant 7 against a registry
already holding tenant 7. -/
theorem c7_duplicate_register_witness :
    c7State.bots.countP (fun b => b.1 == 7) = 1
    ∧ ((register_bot c7State 7 99 [5]).2 = some RegError.duplicateTenant
       ∧ (register_bot c7State 7 99 [5]).1 = c7State
       ∧ (register_bot c7State 7 99 [5]).1.bots.countP (fun b => b.1 == 7) = 1
       ∧ (register_bot c7State 7 99 [5]).1.chat_bot_mapping
           = c7State.chat_bot_mapping) :=
  ⟨by decide, c7_duplicate_register c7State 7 99 [5] (by decide)⟩

theorem lookupChat_cons (a : Int × List Nat) (m : ChatMap) (c : Int) :
    lookupChat (a :: m) c = if a.1 == c then some a.2 else lookupChat m c := by
  by_cases h : (a.1 == c) = true
  · simp [lookupChat, List.find?_cons_of_pos, h]
  · simp [lookupChat, List.find?_cons_of_neg, h]

theorem lookup_replace (c : Int) (s : List Nat) :
    ∀ m : ChatMap, m.any (fun e => e.1 == c) = true →
      lookupChat (m.map (fun e => if e.1 == c then (e.1, s) else e)) c = some s := by
  intro m
  induction m with
  | nil => intro h; simp at h
  | cons a m ih =>
    intro h
    by_cases hac : (a.1 == c) = true
    · rw [List.map_cons, if_pos hac, lookupChat_cons]
      simp [hac]
    · have h2 : m.any (fun e => e.1 == c) = true := by
        rcases List.any_eq_true.mp h with ⟨x, hx, hpx⟩
        rcases List.mem_cons.mp hx with rfl | hx
        · exact absurd hpx hac
        · exact List.any_eq_true.mpr ⟨x, hx, hpx⟩
      rw [List.map_cons, if_neg hac, lookupChat_cons, if_neg hac]
      exact ih h2

theorem lookup_append_fresh (c : Int) (s : List Nat) :
    ∀ m : ChatMap, m.any (fun e => e.1 == c) = false →
      lookupChat (m ++ [(c, s)]) c = some s := by
  intro m
  induction m with
  | nil => simp [lookupChat_cons]
  | cons a m ih =>
    intro h
    rw [List.any_cons] at h
    rcases Bool.or_eq_false_iff.mp h with ⟨ha, hm⟩
    rw [List.cons_append, lookupChat_cons, if_neg (by simp [ha])]
    exact ih hm

theorem lookup_setChat_self (m : ChatMap) (c : Int) (s : List Nat) :
    lookupChat (setChat m c s) c = some s := by
  unfold setChat
  by_cases h : m.any (fun e => e.1 == c) = true
  · rw [if_pos h]
    exact lookup_replace c s m h
  · rw [if_neg h]
    exact lookup_append_fresh c s m (Bool.eq_false_iff.mpr h)

theorem lookup_eraseChat_self (c : Int) :
    ∀ m : ChatMap, lookupChat (eraseChat m c) c = none := by
  intro m
  induction m with
  | nil => rfl
  | cons a m ih =>
    unfold eraseChat
    rw [List.filter_cons]
    by_cases hac : (a.1 == c) = true
    · simp only [hac, Bool.not_true, if_false, ite_false, Bool.false_eq_true]
      exact ih
    · have hac2 : (a.1 == c) = false := Bool.eq_false_iff.mpr hac
      simp only [hac2, Bool.not_false, if_true, ite_true]
      rw [lookupChat_cons, if_neg hac]
      exact ih

theorem noEmpty_setChat {m : ChatMap} {c : Int} {s : List Nat}
    (hs : s ≠ []) (hm : noEmptyEntry m) : noEmptyEntry (setChat m c s) := by
  intro e he
  unfold setChat at he
  by_cases h : m.any (fun e => e.1 == c) = true
  · rw [if_pos h] at he
    rcases List.mem_map.mp he with ⟨a, ha, hae⟩
    by_cases hac : (a.1 == c) = true
    · rw [if_pos hac] at hae
      rw [← hae]
      exact hs
    · rw [if_neg hac] at hae
      rw [← hae]
      exact hm a ha
  · rw [if_neg h] at he
    rcases List.mem_append.mp he with ha | hb
    · exact hm e ha
    · rw [List.mem_singleton.mp hb]
      exact hs

theorem noEmpty_eraseChat {m : ChatMap} {c : Int} (hm : noEmptyEntry m) :
    noEmptyEntry (eraseChat m c) := by
  intro e he
  exact hm e (List.mem_of_mem_filter he)

theorem noEmpty_mapAdd {m : ChatMap} (c : Int) (b : Nat) (hm : noEmptyEntry m) :
    noEmptyEntry (mapAdd m c b) := by
  unfold mapAdd
  apply noEmpty_setChat ?_ hm
  by_cases hb : b ∈ ((lookupChat m c).getD [])
  · rw [if_pos hb]
    exact List.ne_nil_of_mem hb
  · rw [if_neg hb]
    simp

theorem noEmpty_mapDiscard {m : ChatMap} (c : Int) (b : Nat)
    (hm : noEmptyEntry m) : noEmptyEntry (mapDiscard m c b) := by
  unfold mapDiscard
  by_cases h : ((lookupChat m c).getD []).filter (fun x => x ≠ b) = []
  · rw [if_pos h]
    exact noEmpty_eraseChat hm
  · rw [if_neg h]
    exact noEmpty_setChat h hm

theorem mem_lookup_mapAdd (m : ChatMap) (c : Int) (b : Nat) :
    b ∈ ((lookupChat (mapAdd m c b) c).getD []) := by
  unfold mapAdd
  rw [lookup_setChat_self]
  by_cases hb : b ∈ ((lookupChat m c).getD [])
  · rw [if_pos hb]
    exact hb
  · rw [if_neg hb]
    simp

theorem lookup_mapDiscard_last (m : ChatMap) (c : Int) (b : Nat)
    (h : lookupChat m c = some [b]) :
    lookupChat (mapDiscard m c b) c = none := by
  unfold mapDiscard
  rw [h]
  simp only [Option.getD_some]
  have hrest : ([b].filter (fun x => x ≠ b)) = [] := by simp
  rw [if_pos hrest]
  exact lookup_eraseChat_self c m

/-- C9: update_chat_activity preserves the no-empty-set invariant of the
chat index; on activate the tenant id is a member of the chat id's set
afterwards; on deactivate of the last member the chat id entry is deleted
entirely (a lookup afterwards finds no entry). -/
theorem c9_chat_index_no_empty (st : ManagerState) (b : Nat) (c : Int)
    (act : Bool) (hinv : noEmptyEntry st.chat_bot_mapping) :
    noEmptyEntry (update_chat_activity st b c act).chat_bot_mapping
    ∧ (act = true →
        b ∈ ((lookupChat (update_chat_activity st b c act).chat_bot_mapping c).getD []))
    ∧ (act = false → lookupChat st.chat_bot_mapping c = some [b] →
        lookupChat (update_chat_activity st b c act).chat_bot_mapping c = none) := by
  refine ⟨?_, ?_, ?_⟩
  · cases act
    · simpa [update_chat_activity] using noEmpty_mapDiscard c b hinv
    · simpa [update_chat_activity] using noEmpty_mapAdd c b hinv
  · intro ha
    subst ha
    simpa [update_chat_activity] using mem_lookup_mapAdd st.chat_bot_mapping c b
  · intro ha hlast
    subst ha
    simpa [update_chat_activity] using
      lookup_mapDiscard_last st.chat_bot_mapping c b hlast

/-- C9 witness: deactivating tenant 1 in chat 10, the only member of that
chat, on a concrete manager state. -/
theorem c9_chat_index_no_empty_witness :
    noEmptyEntry (update_chat_activity c9State 1 10 false).chat_bot_mapping
    ∧ lookupChat (update_chat_activity c9State 1 10 false).chat_bot_mapping 10
        = none := by
  have h := c9_chat_index_no_empty c9State 1 10 false
    (by intro e he; simp [c9State] at he; simp [he])
  exact ⟨h.1, h.2.2 rfl (by decide)⟩

/-- C8: the consume loop processes every envelope of the stream — the
outcomes of the envelopes after a bad one are still produced (the loop is
never terminated by a bad envelope); an envelope with an absent tenant id
is skipped; one referencing an unregistered tenant is skipped; one with an
absent or unparseable payload is skipped; and a well-formed envelope for a
registered tenant (ids are auto-increment database keys, hence nonzero) is
fed to exactly that tenant's dispatcher with its payload. -/
theorem c8_queue_router (registered : List Nat) (pre post : List Envelope)
    (e : Envelope) :
    consume_loop registered (pre ++ e :: post)
      = consume_loop registered pre
          ++ route_envelope registered e :: consume_loop registered post
    ∧ (e.bot_id = none →
        route_envelope registered e = RouteOutcome.skippedMissingBotId)
    ∧ (∀ bid, e.bot_id = some bid → bid ≠ 0 → registered.contains bid = false →
        route_envelope registered e = RouteOutcome.skippedUnknownBot)
    ∧ (∀ bid, e.bot_id = some bid → bid ≠ 0 → registered.contains bid = true →
        e.updatePayload = none →
        route_envelope registered e = RouteOutcome.skippedMissingUpdate)
    ∧ (∀ bid u, e.bot_id = some bid → bid ≠ 0 → registered.contains bid = true →
        e.updatePayload = some u → e.updateParses = false →
        route_envelope registered e = RouteOutcome.skippedParseError)
    ∧ (∀ bid u, e.bot_id = some bid → bid ≠ 0 → registered.contains bid = true →
        e.updatePayload = some u → e.updateParses = true →
        route_envelope registered e = RouteOutcome.fed bid u) := by
  refine ⟨by simp [consume_loop], ?_, ?_, ?_, ?_, ?_⟩
  · intro h
    simp [route_envelope, h]
  · intro bid h hz hreg
    have hmem : ¬ (bid ∈ registered) := by simpa using hreg
    simp [route_envelope, h, hz, hmem]
  · intro bid h hz hreg hu
    have hmem : bid ∈ registered := by simpa using hreg
    simp [route_envelope, h, hz, hmem, hu]
  · intro bid u h hz hreg hu hp
    have hmem : bid ∈ registered := by simpa using hreg
    simp [route_envelope, h, hz, hmem, hu, hp]
  · intro bid u h hz hreg hu hp
    have hmem : bid ∈ registered := by simpa using hreg
    simp [route_envelope, h, hz, hmem, hu, hp]

theorem length_chunks (b : Nat) (hb : 0 < b) :
    ∀ (n : Nat) (l : List Chat), l.length ≤ n →
      (chunks b l).length = (l.length + b - 1) / b := by
  intro n
  induction n with
  | zero =>
    intro l hl
    have hnil : l = [] := List.eq_nil_of_length_eq_zero (by omega)
    subst hnil
    simp [chunks, Nat.div_eq_of_lt (show b - 1 < b by omega)]
  | succ n ih =>
    intro l hl
    cases l with
    | nil => simp [chunks, Nat.div_eq_of_lt (show b - 1 < b by omega)]
    | cons x xs =>
      have hmax : max b 1 = b := by omega
      rw [chunks, hmax, List.length_cons]
      have hdlen : ((x :: xs).drop b).length = xs.length + 1 - b := by
        simp [List.length_drop]
      rw [List.length_cons] at hl
      have ihd := ih ((x :: xs).drop b) (by rw [hdlen]; omega)
      rw [ihd, hdlen, List.length_cons]
      by_cases hcase : xs.length + 1 ≤ b
      · have h0 : xs.length + 1 - b = 0 := by omega
        rw [h0]
        have h1 : (xs.length + 1 + b - 1) / b = 1 :=
          Nat.div_eq_of_lt_le (by omega) (by omega)
        rw [h1, Nat.div_eq_of_lt (show 0 + b - 1 < b by omega)]
      · have heq : xs.length + 1 + b - 1 = (xs.length + 1 - b + b - 1) + b := by
          omega
        rw [heq, Nat.add_div_right _ hb]

theorem flatten_chunks (b : Nat) :
    ∀ (n : Nat) (l : List Chat), l.length ≤ n → (chunks b l).flatten = l := by
  intro n
  induction n with
  | zero =>
    intro l hl
    have hnil : l = [] := List.eq_nil_of_length_eq_zero (by omega)
    subst hnil
    simp [chunks]
  | succ n ih =>
    intro l hl
    cases l with
    | nil => simp [chunks]
    | cons x xs =>
      rw [chunks, List.flatten_cons]
      rw [List.length_cons] at hl
      have hmax1 : 1 ≤ max b 1 := le_max_right b 1
      rw [ih ((x :: xs).drop (max b 1)) (by simp [List.length_drop]; omega)]
      exact List.take_append_drop _ _

theorem batch_totals_keeps_acc (r : Nat) (acc : Nat × Nat) (batch : List Chat) :
    batch_totals r acc batch = acc := by
  simp only [batch_totals]
  have htrue : (batch.map (fun c => gatherItem c r)).filter isLiteralTrue = [] := by
    rw [List.filter_eq_nil_iff]
    intro x hx
    rcases List.mem_map.mp hx with ⟨c, _, hc⟩
    rw [← hc]
    simp [gatherItem, isLiteralTrue]
  have hfail : (batch.map (fun c => gatherItem c r)).filter
      isLiteralFalseOrException = [] := by
    rw [List.filter_eq_nil_iff]
    intro x hx
    rcases List.mem_map.mp hx with ⟨c, _, hc⟩
    rw [← hc]
    simp [gatherItem, isLiteralFalseOrException]
  rw [htrue, hfail]
  rfl

theorem foldl_batch_totals_keeps (r : Nat) :
    ∀ (bs : List (List Chat)) (acc : Nat × Nat),
      bs.foldl (batch_totals r) acc = acc := by
  intro bs
  induction bs with
  | nil => intro acc; rfl
  | cons B bs ih =>
    intro acc
    rw [List.foldl_cons, batch_totals_keeps_acc]
    exact ih acc

/-- C2: evaluating the broadcast at the failing input — a tenant with two
active chats, batch size 50 and retry count 3, where chat 2 fails all
three attempts: one batch (ceil(2/50)) is processed and the failing chat's
send coroutine reports failure, yet both tallies stay zero, so success +
failure does not account for the chats — asyncio.gather collects the
aiojobs Job handles returned by the spawn calls, never the send booleans,
so the is-True and is-False-or-exception checks match nothing — and the
function returns None to the caller, not the counts. -/
theorem c2_broadcast_zero_tallies :
    (broadcast_message c2Chats 50 3).batchCount = 1
    ∧ send_with_retry c2FailChat 3 = false
    ∧ (broadcast_message c2Chats 50 3).total_success = 0
    ∧ (broadcast_message c2Chats 50 3).total_failed = 0
    ∧ (broadcast_message c2Chats 50 3).total_success
        + (broadcast_message c2Chats 50 3).total_failed ≠ c2Chats.length
    ∧ (broadcast_message c2Chats 50 3).retVal = none := by
  have hlen := length_chunks 50 (by decide) c2Chats.length c2Chats le_rfl
  have hfold := foldl_batch_totals_keeps 3 (chunks 50 c2Chats) (0, 0)
  refine ⟨?_, by decide, ?_, ?_, ?_, rfl⟩
  · simp only [broadcast_message]
    rw [hlen]
    decide
  · simp only [broadcast_message]
    rw [hfold]
  · simp only [broadcast_message]
    rw [hfold]
  · simp only [broadcast_message]
    rw [hfold]
    decide

end TgBot
